import Mathlib

/-!
Shallow embedding of the VDI-DASHBOARD in-memory ledger
(`MemStorage` in `server/storage.ts`) and of the notification helper
`notifyVDIRequest` (`server/routes.ts`).

JavaScript `Map` preserves insertion order and `set` on an existing key
overwrites in place, so each map is modelled as a list kept in insertion
order; `set` on an existing key is a `List.map` that rewrites the matching
entry, `set` on a fresh key is an append.  All keys stored by the code
coincide with the `id` field of the stored value, so key lookup is
`List.find?` on `id`.

JavaScript exceptions carry the state as mutated up to the throw point, so
every fallible operation returns `Except Err α × MemStorage`, the second
component being the ledger state after the call whether it threw or not.

The async password hashing in the constructor uses random salts, so the two
seeded password hashes are parameters of the initial state; no claim
depends on their value.  The `sessionStore` field is an external
collaborator and carries no ledger state, so it is not modelled.
-/

namespace VDIDashboard

inductive VDIStatus where
  | Free
  | Assigned
deriving DecidableEq, Repr

structure VDI where
  id : String
  status : VDIStatus
  assignedUserId : Option Nat
deriving DecidableEq, Repr

inductive RequestStatus where
  | Pending
  | Approved
  | Rejected
deriving DecidableEq, Repr

structure VDIRequest where
  id : Nat
  vdiId : String
  requestedByUserId : Nat
  status : RequestStatus
deriving DecidableEq, Repr

structure User where
  id : Nat
  username : String
  password : String
deriving DecidableEq, Repr

/-- The errors thrown by `MemStorage` (`throw new Error(...)` sites), plus the
Conflict that §4.2 of the spec puts on `createUser` (see
`createUserChecked`).  `VDINotFound` and `RequestNotFound` are the spec's
NotFound taxonomy entries, `VDIAlreadyAssigned` and `UsernameTaken` its
Conflict entries. -/
inductive Err where
  | VDINotFound
  | VDIAlreadyAssigned
  | RequestNotFound
  | UsernameTaken
deriving DecidableEq, Repr

structure MemStorage where
  users : List User
  vdis : List VDI
  vdiRequests : List VDIRequest
  currentId : Nat
  currentRequestId : Nat
deriving DecidableEq, Repr

namespace MemStorage

/-- `getUser(id)`: `this.users.get(id)`. -/
def getUser (s : MemStorage) (id : Nat) : Option User :=
  s.users.find? (fun u => u.id == id)

/-- `getUserByUsername(username)`:
`Array.from(this.users.values()).find(u => u.username === username)`. -/
def getUserByUsername (s : MemStorage) (username : String) : Option User :=
  s.users.find? (fun u => u.username == username)

/-- `createUser(insertUser)`: allocates `currentId++`, inserts, returns the
new user.  No uniqueness check of any kind. -/
def createUser (s : MemStorage) (username password : String) : User × MemStorage :=
  let user : User := { id := s.currentId, username := username, password := password }
  (user, { s with currentId := s.currentId + 1, users := s.users ++ [user] })

/-- `getVDIs()`: `Array.from(this.vdis.values())`. -/
def getVDIs (s : MemStorage) : List VDI :=
  s.vdis

/-- `assignVDI(vdiId, userId)`: NotFound if the id is unknown, Conflict if the
record's status is already Assigned (no check against who holds it),
otherwise overwrite with `{id, status: Assigned, assignedUserId: userId}`. -/
def assignVDI (s : MemStorage) (vdiId : String) (userId : Nat) :
    Except Err VDI × MemStorage :=
  match s.vdis.find? (fun v => v.id == vdiId) with
  | none => (Except.error Err.VDINotFound, s)
  | some vdi =>
    if vdi.status == VDIStatus.Assigned then
      (Except.error Err.VDIAlreadyAssigned, s)
    else
      let updatedVdi : VDI :=
        { id := vdi.id, status := VDIStatus.Assigned, assignedUserId := some userId }
      (Except.ok updatedVdi,
       { s with vdis := s.vdis.map (fun v => if v.id == vdiId then updatedVdi else v) })

/-- `unassignVDI(vdiId)`: NotFound if unknown, otherwise overwrite with
`{id, status: Free, assignedUserId: null}` unconditionally. -/
def unassignVDI (s : MemStorage) (vdiId : String) : Except Err VDI × MemStorage :=
  match s.vdis.find? (fun v => v.id == vdiId) with
  | none => (Except.error Err.VDINotFound, s)
  | some vdi =>
    let updatedVdi : VDI :=
      { id := vdi.id, status := VDIStatus.Free, assignedUserId := none }
    (Except.ok updatedVdi,
     { s with vdis := s.vdis.map (fun v => if v.id == vdiId then updatedVdi else v) })

/-- `createVDIRequest(vdiId, userId)`: allocates `currentRequestId++`, stores
and returns a Pending request.  No validation of `vdiId` or `userId`. -/
def createVDIRequest (s : MemStorage) (vdiId : String) (userId : Nat) :
    VDIRequest × MemStorage :=
  let request : VDIRequest :=
    { id := s.currentRequestId, vdiId := vdiId, requestedByUserId := userId,
      status := RequestStatus.Pending }
  (request,
   { s with currentRequestId := s.currentRequestId + 1,
            vdiRequests := s.vdiRequests ++ [request] })

/-- `approveVDIRequest(requestId)`: NotFound if unknown; otherwise the request
record is overwritten with status Approved FIRST, and only then is
`assignVDI(request.vdiId, request.requestedByUserId)` attempted — if that
throws, the throw propagates but the Approved mark already persists. -/
def approveVDIRequest (s : MemStorage) (requestId : Nat) :
    Except Err VDIRequest × MemStorage :=
  match s.vdiRequests.find? (fun r => r.id == requestId) with
  | none => (Except.error Err.RequestNotFound, s)
  | some request =>
    let updatedRequest : VDIRequest := { request with status := RequestStatus.Approved }
    let s1 : MemStorage :=
      { s with vdiRequests :=
          s.vdiRequests.map (fun r => if r.id == requestId then updatedRequest else r) }
    match s1.assignVDI request.vdiId request.requestedByUserId with
    | (Except.ok _, s2) => (Except.ok updatedRequest, s2)
    | (Except.error e, s2) => (Except.error e, s2)

/-- `rejectVDIRequest(requestId)`: NotFound if unknown; otherwise overwrite
the request record with status Rejected, unconditionally. -/
def rejectVDIRequest (s : MemStorage) (requestId : Nat) :
    Except Err VDIRequest × MemStorage :=
  match s.vdiRequests.find? (fun r => r.id == requestId) with
  | none => (Except.error Err.RequestNotFound, s)
  | some request =>
    let updatedRequest : VDIRequest := { request with status := RequestStatus.Rejected }
    (Except.ok updatedRequest,
     { s with vdiRequests :=
         s.vdiRequests.map (fun r => if r.id == requestId then updatedRequest else r) })

/-- `getVDIRequests()`: `Array.from(this.vdiRequests.values())`. -/
def getVDIRequests (s : MemStorage) : List VDIRequest :=
  s.vdiRequests

end MemStorage

/-- The nine-slot pool seeded by the constructor: `VDI01` .. `VDI09`, all
Free and unassigned. -/
def initVDIs : List VDI :=
  (List.range 9).map
    (fun i => { id := "VDI0" ++ toString (i + 1), status := VDIStatus.Free,
                assignedUserId := none })

/-- The `MemStorage` constructor state once `initializeDefaultUsers` has
settled: the pool above, the two seeded accounts `madhav` (id 1) and
`tinaga` (id 2) with their (salted, hence opaque) password hashes `h1`,
`h2`, `currentId = 3`, `currentRequestId = 1`. -/
def initialState (h1 h2 : String) : MemStorage :=
  { users := [{ id := 1, username := "madhav", password := h1 },
              { id := 2, username := "tinaga", password := h2 }],
    vdis := initVDIs,
    vdiRequests := [],
    currentId := 3,
    currentRequestId := 1 }

/-- The ledger-mutating calls reachable through `IStorage` / the HTTP
routes; used to quantify over reachable ledger states. -/
inductive Op where
  | assign (vdiId : String) (userId : Nat)
  | unassign (vdiId : String)
  | createReq (vdiId : String) (userId : Nat)
  | approve (requestId : Nat)
  | reject (requestId : Nat)
  | newUser (username password : String)
deriving DecidableEq, Repr

/-- Apply one ledger call, keeping the post-state whether or not the call
threw (JavaScript semantics: mutations before a throw persist). -/
def applyOp (s : MemStorage) : Op → MemStorage
  | Op.assign vdiId userId => (s.assignVDI vdiId userId).2
  | Op.unassign vdiId => (s.unassignVDI vdiId).2
  | Op.createReq vdiId userId => (s.createVDIRequest vdiId userId).2
  | Op.approve requestId => (s.approveVDIRequest requestId).2
  | Op.reject requestId => (s.rejectVDIRequest requestId).2
  | Op.newUser username password => (s.createUser username password).2

/-- Run a sequence of ledger calls. -/
def runOps (s : MemStorage) (ops : List Op) : MemStorage :=
  ops.foldl applyOp s

/-! ## Notification fan-out (`server/routes.ts`) -/

/-- One WebSocket: `isOpen` is `readyState === WebSocket.OPEN`. -/
structure Channel where
  cid : Nat
  isOpen : Bool
deriving DecidableEq, Repr

/-- `userConnections: Map<number, Set<WebSocket>>`, in insertion order. -/
abbrev Registry := List (Nat × List Channel)

/-- `userConnections.get(userId)`. -/
def lookupChannels (reg : Registry) (userId : Nat) : Option (List Channel) :=
  (reg.find? (fun e => e.1 == userId)).map (fun e => e.2)

/-- The payload of a `"vdi_request"` envelope. -/
structure VDIRequestMessage where
  requestingUserId : Nat
  requestingUsername : String
  vdiId : String
  requestId : Nat
deriving DecidableEq, Repr

/-- One `client.send(message)` call: which user's channel received which
message. -/
structure Send where
  toUserId : Nat
  channel : Channel
  message : VDIRequestMessage
deriving DecidableEq, Repr

/-- `notifyVDIRequest(vdiId, requestingUserId)` in `routes.ts`, as the list
of sends it performs.  The guard is `vdi?.assignedUserId && requestingUser`
(JavaScript truthiness: a holder id of 0 is falsy); the request whose id is
put in the message is `requests[requests.length - 1]`, the most recently
created request overall.  When the requests list is empty, `request.id`
raises a TypeError that the surrounding try/catch swallows, so nothing is
sent. -/
def notifyVDIRequest (s : MemStorage) (reg : Registry) (vdiId : String)
    (requestingUserId : Nat) : List Send :=
  match (s.getVDIs.find? (fun v => v.id == vdiId)).bind (fun v => v.assignedUserId),
        s.getUser requestingUserId with
  | some holder, some requestingUser =>
    if holder == 0 then []
    else
      match s.getVDIRequests.getLast? with
      | none => []
      | some request =>
        let msg : VDIRequestMessage :=
          { requestingUserId := requestingUser.id,
            requestingUsername := requestingUser.username,
            vdiId := vdiId, requestId := request.id }
        match lookupChannels reg holder with
        | none => []
        | some chans =>
          (chans.filter (fun c => c.isOpen)).map
            (fun c => { toUserId := holder, channel := c, message := msg })
  | _, _ => []

/-- The request the spec's words designate for `notifyHolder`: "the most
recently created pending request for that VDI".  Requests are kept in
creation order, so it is the last pending request whose `vdiId` matches. -/
def specLatestPendingRequestFor (s : MemStorage) (vdiId : String) : Option VDIRequest :=
  (s.vdiRequests.filter
    (fun r => r.vdiId == vdiId && r.status == RequestStatus.Pending)).getLast?

/-- Modelled from the spec: §4.2's Identity-Store `createUser` contract,
"fails with Conflict if username already taken (uniqueness enforced at this
layer or by the underlying persistence collaborator)".  The enforcing layer
(the registration route in `server/auth.ts`, which consults
`getUserByUsername` before calling `storage.createUser`) is not among the
provided sources, so it is modelled here from the spec's words on top of
the source-translated `getUserByUsername` and `createUser`. -/
def createUserChecked (s : MemStorage) (username password : String) :
    Except Err User × MemStorage :=
  match s.getUserByUsername username with
  | some _ => (Except.error Err.UsernameTaken, s)
  | none =>
    let (user, s1) := s.createUser username password
    (Except.ok user, s1)

/-! ## Concrete states used by counterexamples and witnesses -/

/-- A reachable state: from the seeded pool, user 1 claims `VDI01`, then
user 2 files a (pending) transfer request for it — the spec's central
approval scenario, just before the holder approves. -/
def approvalState : MemStorage :=
  runOps (initialState "h1" "h2") [Op.assign "VDI01" 1, Op.createReq "VDI01" 2]

/-- A reachable state: user 2's request `1` for the free `VDI02` has been
created and then rejected, so request `1` is in the terminal Rejected
state. -/
def rejectedState : MemStorage :=
  runOps (initialState "h1" "h2") [Op.createReq "VDI02" 2, Op.reject 1]

/-- A reachable state: `VDI01` held by user 1, request `1` (pending, for
`VDI01`) filed by user 2, then request `2` (pending, for `VDI02`) also filed
by user 2 — so the globally latest request is not the latest pending
request for `VDI01`. -/
def staleNotifyState : MemStorage :=
  runOps (initialState "h1" "h2")
    [Op.assign "VDI01" 1, Op.createReq "VDI01" 2, Op.createReq "VDI02" 2]

/-- A registry where holder 1 has one open channel and user 2 another. -/
def staleNotifyRegistry : Registry :=
  [(1, [{ cid := 10, isOpen := true }]), (2, [{ cid := 20, isOpen := true }])]

/-- A reachable state holding two distinct users that share the username
`"bob"`: `createUser` inserts without any uniqueness check. -/
def dupUserState : MemStorage :=
  runOps (initialState "ha" "hb") [Op.newUser "bob" "p1", Op.newUser "bob" "p2"]

/-! ## Predicates the claims quantify over -/

/-- The spec §3 / §8 record invariant for one VDI:
`status == Assigned` iff `assignedUserId != null`. -/
def vdiConsistent (v : VDI) : Prop :=
  v.status = VDIStatus.Assigned ↔ v.assignedUserId ≠ none

/-- The invariant over a whole VDI table. -/
def vdisConsistent (vs : List VDI) : Prop :=
  ∀ v ∈ vs, vdiConsistent v

/-- The request ledger still holds a record under key `rid`. -/
def hasRequest (s : MemStorage) (rid : Nat) : Prop :=
  (s.vdiRequests.find? (fun r => r.id == rid)).isSome = true

/-- Every stored request id is below the allocator counter (holds in every
reachable state; it is what makes freshly allocated ids fresh). -/
def reqIdsBounded (s : MemStorage) : Prop :=
  ∀ r ∈ s.vdiRequests, r.id < s.currentRequestId

/-- The request ids handed out by the `createVDIRequest` calls of an
operation sequence, in call order. -/
def allocatedIds : MemStorage → List Op → List Nat
  | _, [] => []
  | s, op :: ops =>
    match op with
    | Op.createReq vdiId userId =>
      (s.createVDIRequest vdiId userId).1.id :: allocatedIds (applyOp s op) ops
    | _ => allocatedIds (applyOp s op) ops

end VDIDashboard

namespace VDIDashboard

/-! ## Frame and characterization lemmas -/

theorem assignVDI_vdiRequests (s : MemStorage) (vdiId : String) (userId : Nat) :
    (s.assignVDI vdiId userId).2.vdiRequests = s.vdiRequests := by
  unfold MemStorage.assignVDI
  split
  · rfl
  · split <;> rfl

theorem assignVDI_currentRequestId (s : MemStorage) (vdiId : String) (userId : Nat) :
    (s.assignVDI vdiId userId).2.currentRequestId = s.currentRequestId := by
  unfold MemStorage.assignVDI
  split
  · rfl
  · split <;> rfl

theorem unassignVDI_vdiRequests (s : MemStorage) (vdiId : String) :
    (s.unassignVDI vdiId).2.vdiRequests = s.vdiRequests := by
  unfold MemStorage.unassignVDI
  split <;> rfl

theorem unassignVDI_currentRequestId (s : MemStorage) (vdiId : String) :
    (s.unassignVDI vdiId).2.currentRequestId = s.currentRequestId := by
  unfold MemStorage.unassignVDI
  split <;> rfl

theorem rejectVDIRequest_vdis (s : MemStorage) (rid : Nat) :
    (s.rejectVDIRequest rid).2.vdis = s.vdis := by
  unfold MemStorage.rejectVDIRequest
  split <;> rfl

theorem rejectVDIRequest_currentRequestId (s : MemStorage) (rid : Nat) :
    (s.rejectVDIRequest rid).2.currentRequestId = s.currentRequestId := by
  unfold MemStorage.rejectVDIRequest
  split <;> rfl

/-- In the found branch, `approveVDIRequest` is: mark Approved in the request
table, then run `assignVDI` from that intermediate state; the result value is
the assign outcome mapped to the marked request, the result state is the
assign post-state. -/
theorem approveVDIRequest_some_eq (s : MemStorage) (rid : Nat) (request : VDIRequest)
    (hf : s.vdiRequests.find? (fun r => r.id == rid) = some request) :
    s.approveVDIRequest rid =
      ((({ s with vdiRequests := s.vdiRequests.map (fun r => if r.id == rid then { request with status := RequestStatus.Approved } else r) } : MemStorage).assignVDI request.vdiId request.requestedByUserId).1.map
            (fun _ => { request with status := RequestStatus.Approved }),
       (({ s with vdiRequests := s.vdiRequests.map (fun r => if r.id == rid then { request with status := RequestStatus.Approved } else r) } : MemStorage).assignVDI request.vdiId request.requestedByUserId).2) := by
  unfold MemStorage.approveVDIRequest
  simp only [hf]
  split
  next val s2 heq => rw [heq]; rfl
  next e s2 heq => rw [heq]; rfl


/-- `Map.set` on an existing key, seen through `find?`: rewriting every entry
whose id matches `rid` to a fixed record `upd` that itself matches `rid`
makes `find?` return `upd`, provided the original table had a match. -/
theorem find?_map_const_update (l : List VDIRequest) (rid : Nat) (upd : VDIRequest)
    (hupd : (upd.id == rid) = true) (req : VDIRequest)
    (hfind : l.find? (fun r => r.id == rid) = some req) :
    (l.map (fun r => if r.id == rid then upd else r)).find? (fun r => r.id == rid)
      = some upd := by
  induction l with
  | nil => simp at hfind
  | cons a l ih =>
    by_cases h : a.id = rid
    · simp only [List.map_cons, if_pos (show (a.id == rid) = true by simp [h])]
      exact List.find?_cons_of_pos _ hupd
    · have h2 : ¬ ((a.id == rid) = true) := by simp [h]
      rw [show List.find? (fun r => r.id == rid) (a :: l)
            = List.find? (fun r => r.id == rid) l from List.find?_cons_of_neg l h2] at hfind
      simp only [List.map_cons, if_neg h2]
      rw [show List.find? (fun r => r.id == rid)
            (a :: List.map (fun r => if (r.id == rid) = true then upd else r) l)
            = List.find? (fun r => r.id == rid)
                (List.map (fun r => if (r.id == rid) = true then upd else r) l)
          from List.find?_cons_of_neg _ h2]
      exact ih hfind

/-- `find?` over a list split as `l₁ ++ u :: l₂` where nothing in `l₁`
matches and `u` does: the earliest match wins. -/
theorem find?_append_cons {α : Type} (p : α → Bool) (l₁ l₂ : List α) (u : α)
    (hu : p u = true) (hl : ∀ x ∈ l₁, p x = false) :
    (l₁ ++ u :: l₂).find? p = some u := by
  induction l₁ with
  | nil => simp [List.find?_cons, hu]
  | cons a l ih =>
    have ha := hl a (List.mem_cons_self a l)
    simp only [List.cons_append]
    rw [List.find?_cons_of_neg _ (by simp [ha])]
    exact ih (fun x hx => hl x (List.mem_cons_of_mem a hx))

/-- In the found branch, `rejectVDIRequest` overwrites the record in place
and returns it. -/
theorem rejectVDIRequest_some_eq (s : MemStorage) (rid : Nat) (request : VDIRequest)
    (hf : s.vdiRequests.find? (fun r => r.id == rid) = some request) :
    s.rejectVDIRequest rid =
      (Except.ok { request with status := RequestStatus.Rejected },
       { s with vdiRequests := s.vdiRequests.map (fun r => if r.id == rid then { request with status := RequestStatus.Rejected } else r) }) := by
  unfold MemStorage.rejectVDIRequest
  simp only [hf]

/-- Overwriting the entry at key `rid2` with a record that still carries key
`rid2` never makes a `find?` for any key `rid` stop succeeding. -/
theorem find?_isSome_map_update (l : List VDIRequest) (rid rid2 : Nat)
    (upd : VDIRequest) (hupd : (upd.id == rid2) = true)
    (h : (l.find? (fun r => r.id == rid)).isSome = true) :
    ((l.map (fun r => if r.id == rid2 then upd else r)).find?
      (fun r => r.id == rid)).isSome = true := by
  rw [List.find?_isSome] at h ⊢
  obtain ⟨x, hx, hpx⟩ := h
  refine ⟨if (x.id == rid2) = true then upd else x, List.mem_map.mpr ⟨x, hx, rfl⟩, ?_⟩
  by_cases hc : x.id = rid2
  · have h1 : upd.id = rid2 := by simpa using hupd
    have h2 : x.id = rid := by simpa using hpx
    simp only [if_pos (show (x.id == rid2) = true by simp [hc])]
    simp [h1, ← hc, h2]
  · simp only [if_neg (show ¬ ((x.id == rid2) = true) by simp [hc])]
    exact hpx

/-- No ledger call ever deletes a request record. -/
theorem hasRequest_applyOp (s : MemStorage) (op : Op) (rid : Nat)
    (h : hasRequest s rid) : hasRequest (applyOp s op) rid := by
  cases op with
  | assign vdiId userId =>
    show ((s.assignVDI vdiId userId).2.vdiRequests.find? (fun r => r.id == rid)).isSome = true
    rw [assignVDI_vdiRequests]
    exact h
  | unassign vdiId =>
    show ((s.unassignVDI vdiId).2.vdiRequests.find? (fun r => r.id == rid)).isSome = true
    rw [unassignVDI_vdiRequests]
    exact h
  | createReq vdiId userId =>
    show (((s.createVDIRequest vdiId userId).2.vdiRequests).find?
      (fun r => r.id == rid)).isSome = true
    unfold hasRequest at h
    obtain ⟨r, hr⟩ := Option.isSome_iff_exists.mp h
    show ((s.vdiRequests ++ [(s.createVDIRequest vdiId userId).1]).find?
      (fun r => r.id == rid)).isSome = true
    rw [List.find?_append, hr]
    rfl
  | reject rid2 =>
    show ((s.rejectVDIRequest rid2).2.vdiRequests.find? (fun r => r.id == rid)).isSome = true
    cases hf : s.vdiRequests.find? (fun r => r.id == rid2) with
    | none =>
      unfold MemStorage.rejectVDIRequest
      rw [hf]
      exact h
    | some req2 =>
      rw [rejectVDIRequest_some_eq s rid2 req2 hf]
      exact find?_isSome_map_update s.vdiRequests rid rid2 _
        (by simpa using List.find?_some hf) h
  | approve rid2 =>
    show ((s.approveVDIRequest rid2).2.vdiRequests.find? (fun r => r.id == rid)).isSome = true
    cases hf : s.vdiRequests.find? (fun r => r.id == rid2) with
    | none =>
      unfold MemStorage.approveVDIRequest
      rw [hf]
      exact h
    | some req2 =>
      rw [approveVDIRequest_some_eq s rid2 req2 hf]
      rw [assignVDI_vdiRequests]
      exact find?_isSome_map_update s.vdiRequests rid rid2 _
        (by simpa using List.find?_some hf) h
  | newUser username password =>
    show ((s.createUser username password).2.vdiRequests.find?
      (fun r => r.id == rid)).isSome = true
    exact h

/-- Request records survive arbitrary ledger call sequences. -/
theorem hasRequest_runOps (ops : List Op) : ∀ (s : MemStorage) (rid : Nat),
    hasRequest s rid → hasRequest (runOps s ops) rid := by
  induction ops with
  | nil => exact fun s rid h => h
  | cons op ops ih => exact fun s rid h => ih (applyOp s op) rid (hasRequest_applyOp s op rid h)

/-! ## Preservation of the VDI record invariant (spec §3/§8) -/

theorem vdisConsistent_assignVDI (s : MemStorage) (vdiId : String) (userId : Nat)
    (h : vdisConsistent s.vdis) : vdisConsistent (s.assignVDI vdiId userId).2.vdis := by
  unfold MemStorage.assignVDI
  cases hf : s.vdis.find? (fun v => v.id == vdiId) with
  | none => simp only [hf]; exact h
  | some vdi =>
    simp only [hf]
    by_cases hst : vdi.status = VDIStatus.Assigned
    · simp only [if_pos (show (vdi.status == VDIStatus.Assigned) = true by simp [hst])]
      exact h
    · simp only [if_neg (show ¬ ((vdi.status == VDIStatus.Assigned) = true) by simp [hst])]
      intro v hv
      obtain ⟨w, hw, rfl⟩ := List.mem_map.mp hv
      by_cases hid : w.id = vdiId
      · simp only [if_pos (show (w.id == vdiId) = true by simp [hid])]
        simp [vdiConsistent]
      · simp only [if_neg (show ¬ ((w.id == vdiId) = true) by simp [hid])]
        exact h w hw

theorem vdisConsistent_unassignVDI (s : MemStorage) (vdiId : String)
    (h : vdisConsistent s.vdis) : vdisConsistent (s.unassignVDI vdiId).2.vdis := by
  unfold MemStorage.unassignVDI
  cases hf : s.vdis.find? (fun v => v.id == vdiId) with
  | none => simp only [hf]; exact h
  | some vdi =>
    simp only [hf]
    intro v hv
    obtain ⟨w, hw, rfl⟩ := List.mem_map.mp hv
    by_cases hid : w.id = vdiId
    · simp only [if_pos (show (w.id == vdiId) = true by simp [hid])]
      simp [vdiConsistent]
    · simp only [if_neg (show ¬ ((w.id == vdiId) = true) by simp [hid])]
      exact h w hw

theorem vdisConsistent_approveVDIRequest (s : MemStorage) (rid : Nat)
    (h : vdisConsistent s.vdis) : vdisConsistent (s.approveVDIRequest rid).2.vdis := by
  cases hf : s.vdiRequests.find? (fun r => r.id == rid) with
  | none =>
    unfold MemStorage.approveVDIRequest
    simp only [hf]
    exact h
  | some req =>
    rw [approveVDIRequest_some_eq s rid req hf]
    exact vdisConsistent_assignVDI _ req.vdiId req.requestedByUserId h

theorem vdisConsistent_applyOp (s : MemStorage) (op : Op)
    (h : vdisConsistent s.vdis) : vdisConsistent (applyOp s op).vdis := by
  cases op with
  | assign vdiId userId => exact vdisConsistent_assignVDI s vdiId userId h
  | unassign vdiId => exact vdisConsistent_unassignVDI s vdiId h
  | createReq vdiId userId => exact h
  | approve rid => exact vdisConsistent_approveVDIRequest s rid h
  | reject rid =>
    show vdisConsistent (s.rejectVDIRequest rid).2.vdis
    rw [rejectVDIRequest_vdis]
    exact h
  | newUser username password => exact h

theorem vdisConsistent_runOps (ops : List Op) : ∀ s : MemStorage,
    vdisConsistent s.vdis → vdisConsistent (runOps s ops).vdis := by
  induction ops with
  | nil => exact fun s h => h
  | cons op ops ih => exact fun s h => ih (applyOp s op) (vdisConsistent_applyOp s op h)

theorem vdisConsistent_initVDIs : vdisConsistent initVDIs := by
  intro v hv
  simp only [initVDIs, List.mem_map] at hv
  obtain ⟨i, hi, rfl⟩ := hv
  simp [vdiConsistent]

/-! ## Preservation of the request-id bound -/

theorem reqIdsBounded_map_update (l : List VDIRequest) (c rid2 : Nat)
    (req2 : VDIRequest) (hreq : req2 ∈ l) (h : ∀ r ∈ l, r.id < c)
    (st : RequestStatus) :
    ∀ r ∈ l.map (fun r => if r.id == rid2 then { req2 with status := st } else r),
      r.id < c := by
  intro r hr
  obtain ⟨w, hw, rfl⟩ := List.mem_map.mp hr
  by_cases hc : w.id = rid2
  · simp only [if_pos (show (w.id == rid2) = true by simp [hc])]
    exact h req2 hreq
  · simp only [if_neg (show ¬ ((w.id == rid2) = true) by simp [hc])]
    exact h w hw

theorem reqIdsBounded_applyOp (s : MemStorage) (op : Op)
    (h : reqIdsBounded s) : reqIdsBounded (applyOp s op) := by
  cases op with
  | assign vdiId userId =>
    intro r hr
    have hr2 : r ∈ (s.assignVDI vdiId userId).2.vdiRequests := hr
    rw [assignVDI_vdiRequests] at hr2
    show r.id < (s.assignVDI vdiId userId).2.currentRequestId
    rw [assignVDI_currentRequestId]
    exact h r hr2
  | unassign vdiId =>
    intro r hr
    have hr2 : r ∈ (s.unassignVDI vdiId).2.vdiRequests := hr
    rw [unassignVDI_vdiRequests] at hr2
    show r.id < (s.unassignVDI vdiId).2.currentRequestId
    rw [unassignVDI_currentRequestId]
    exact h r hr2
  | createReq vdiId userId =>
    intro r hr
    have hr2 : r ∈ s.vdiRequests ++ [(s.createVDIRequest vdiId userId).1] := hr
    show r.id < s.currentRequestId + 1
    rcases List.mem_append.mp hr2 with h1 | h2
    · exact Nat.lt_succ_of_lt (h r h1)
    · have he : r = (s.createVDIRequest vdiId userId).1 := by simpa using h2
      rw [he]
      exact Nat.lt_succ_self _
  | approve rid =>
    cases hf : s.vdiRequests.find? (fun x => x.id == rid) with
    | none =>
      show reqIdsBounded (s.approveVDIRequest rid).2
      unfold MemStorage.approveVDIRequest
      simp only [hf]
      exact h
    | some req =>
      show reqIdsBounded (s.approveVDIRequest rid).2
      rw [approveVDIRequest_some_eq s rid req hf]
      intro r hr
      rw [assignVDI_vdiRequests] at hr
      show r.id < ((_ : MemStorage).assignVDI req.vdiId req.requestedByUserId).2.currentRequestId
      rw [assignVDI_currentRequestId]
      exact reqIdsBounded_map_update s.vdiRequests s.currentRequestId rid req
        (List.mem_of_find?_eq_some hf) h RequestStatus.Approved r hr
  | reject rid =>
    cases hf : s.vdiRequests.find? (fun x => x.id == rid) with
    | none =>
      show reqIdsBounded (s.rejectVDIRequest rid).2
      unfold MemStorage.rejectVDIRequest
      simp only [hf]
      exact h
    | some req =>
      show reqIdsBounded (s.rejectVDIRequest rid).2
      rw [rejectVDIRequest_some_eq s rid req hf]
      intro r hr
      exact reqIdsBounded_map_update s.vdiRequests s.currentRequestId rid req
        (List.mem_of_find?_eq_some hf) h RequestStatus.Rejected r hr
  | newUser username password => exact h

theorem reqIdsBounded_runOps (ops : List Op) : ∀ s : MemStorage,
    reqIdsBounded s → reqIdsBounded (runOps s ops) := by
  induction ops with
  | nil => exact fun s h => h
  | cons op ops ih => exact fun s h => ih (applyOp s op) (reqIdsBounded_applyOp s op h)

/-! ## The request-id allocator only moves forward -/

theorem currentRequestId_le_applyOp (s : MemStorage) (op : Op) :
    s.currentRequestId ≤ (applyOp s op).currentRequestId := by
  cases op with
  | assign vdiId userId => exact Nat.le_of_eq (assignVDI_currentRequestId s vdiId userId).symm
  | unassign vdiId => exact Nat.le_of_eq (unassignVDI_currentRequestId s vdiId).symm
  | createReq vdiId userId => exact Nat.le_succ _
  | reject rid => exact Nat.le_of_eq (rejectVDIRequest_currentRequestId s rid).symm
  | approve rid =>
    cases hf : s.vdiRequests.find? (fun x => x.id == rid) with
    | none =>
      show s.currentRequestId ≤ (s.approveVDIRequest rid).2.currentRequestId
      unfold MemStorage.approveVDIRequest
      simp only [hf]
      exact Nat.le_refl _
    | some req =>
      show s.currentRequestId ≤ (s.approveVDIRequest rid).2.currentRequestId
      rw [approveVDIRequest_some_eq s rid req hf, assignVDI_currentRequestId]
  | newUser username password => exact Nat.le_refl _

theorem le_allocatedIds (ops : List Op) : ∀ (s : MemStorage) (x : Nat),
    x ∈ allocatedIds s ops → s.currentRequestId ≤ x := by
  induction ops with
  | nil => intro s x hx; simp [allocatedIds] at hx
  | cons op ops ih =>
    intro s x hx
    cases op with
    | createReq vdiId userId =>
      have hx2 : x = (s.createVDIRequest vdiId userId).1.id ∨
          x ∈ allocatedIds (applyOp s (Op.createReq vdiId userId)) ops :=
        List.mem_cons.mp hx
      rcases hx2 with rfl | hmem
      · exact Nat.le_refl _
      · have h1 := ih (applyOp s (Op.createReq vdiId userId)) x hmem
        have h2 : s.currentRequestId + 1 ≤ x := h1
        omega
    | assign vdiId userId =>
      exact Nat.le_trans (currentRequestId_le_applyOp s (Op.assign vdiId userId))
        (ih _ x hx)
    | unassign vdiId =>
      exact Nat.le_trans (currentRequestId_le_applyOp s (Op.unassign vdiId)) (ih _ x hx)
    | approve rid =>
      exact Nat.le_trans (currentRequestId_le_applyOp s (Op.approve rid)) (ih _ x hx)
    | reject rid =>
      exact Nat.le_trans (currentRequestId_le_applyOp s (Op.reject rid)) (ih _ x hx)
    | newUser username password =>
      exact Nat.le_trans (currentRequestId_le_applyOp s (Op.newUser username password))
        (ih _ x hx)

theorem allocatedIds_pairwise (ops : List Op) : ∀ s : MemStorage,
    List.Pairwise (fun a b => a < b) (allocatedIds s ops) := by
  induction ops with
  | nil => intro s; simp [allocatedIds]
  | cons op ops ih =>
    intro s
    cases op with
    | createReq vdiId userId =>
      refine List.Pairwise.cons ?_ (ih (applyOp s (Op.createReq vdiId userId)))
      intro y hy
      have h1 := le_allocatedIds ops (applyOp s (Op.createReq vdiId userId)) y hy
      have h2 : s.currentRequestId + 1 ≤ y := h1
      show s.currentRequestId < y
      omega
    | assign vdiId userId => exact ih (applyOp s (Op.assign vdiId userId))
    | unassign vdiId => exact ih (applyOp s (Op.unassign vdiId))
    | approve rid => exact ih (applyOp s (Op.approve rid))
    | reject rid => exact ih (applyOp s (Op.reject rid))
    | newUser username password => exact ih (applyOp s (Op.newUser username password))


/-- Helper: `assignVDI` in the Conflict branch leaves the whole state
untouched. -/
theorem assignVDI_conflict_eq (s : MemStorage) (vdiId : String) (userId : Nat)
    (v : VDI) (hv : s.vdis.find? (fun w => w.id == vdiId) = some v)
    (hst : v.status = VDIStatus.Assigned) :
    s.assignVDI vdiId userId = (Except.error Err.VDIAlreadyAssigned, s) := by
  unfold MemStorage.assignVDI
  simp only [hv, if_pos (show (v.status == VDIStatus.Assigned) = true by simp [hst])]

/-! ## Claims -/

/-- Claim C4: in every ledger state reachable from the seeded pool by any
sequence of storage operations, every VDI record satisfies
`status == Assigned` iff `assignedUserId` is non-null. -/
theorem C4_status_iff_assigned_invariant (h1 h2 : String) (ops : List Op) :
    vdisConsistent (runOps (initialState h1 h2) ops).vdis :=
  vdisConsistent_runOps ops (initialState h1 h2) vdisConsistent_initVDIs

/-- Claim C5: for every `vdiId` and `userId`, `assignVDI` fails with NotFound
when `vdiId` is unknown; fails with Conflict when the VDI is already
Assigned (whoever holds it, the current holder included), leaving the state
untouched; otherwise it overwrites the record with `status = Assigned`,
`assignedUserId = userId` and returns it. -/
theorem C5_assign_semantics (s : MemStorage) (vdiId : String) (userId : Nat) :
    (s.vdis.find? (fun w => w.id == vdiId) = none →
      s.assignVDI vdiId userId = (Except.error Err.VDINotFound, s)) ∧
    (∀ v, s.vdis.find? (fun w => w.id == vdiId) = some v →
      v.status = VDIStatus.Assigned →
      s.assignVDI vdiId userId = (Except.error Err.VDIAlreadyAssigned, s)) ∧
    (∀ v, s.vdis.find? (fun w => w.id == vdiId) = some v →
      v.status ≠ VDIStatus.Assigned →
      s.assignVDI vdiId userId =
        (Except.ok { id := v.id, status := VDIStatus.Assigned, assignedUserId := some userId },
         { s with vdis := s.vdis.map (fun w => if w.id == vdiId then { id := v.id, status := VDIStatus.Assigned, assignedUserId := some userId } else w) })) := by
  refine ⟨fun hf => ?_, fun v hf hst => assignVDI_conflict_eq s vdiId userId v hf hst, fun v hf hst => ?_⟩
  · unfold MemStorage.assignVDI
    simp only [hf]
  · unfold MemStorage.assignVDI
    simp only [hf, if_neg (show ¬ ((v.status == VDIStatus.Assigned) = true) by simp [hst])]

/-- Claim C5 witness: in `approvalState` (where user 1 holds `VDI01`), a
further assign of `VDI01` — here even on behalf of the requester, user 2 —
fails with Conflict and changes nothing. -/
theorem C5_assign_semantics_witness :
    approvalState.assignVDI "VDI01" 2 = (Except.error Err.VDIAlreadyAssigned, approvalState) :=
  (C5_assign_semantics approvalState "VDI01" 2).2.1
    { id := "VDI01", status := VDIStatus.Assigned, assignedUserId := some 1 }
    (by decide) rfl

/-- Claim C7: across any sequence of ledger calls started from the seeded
state, the request ids handed out by `createVDIRequest` are strictly
increasing in call order — hence never reused — no matter whether earlier
requests were later approved or rejected. -/
theorem C7_request_ids_strictly_increasing (h1 h2 : String) (ops : List Op) :
    List.Pairwise (fun a b => a < b) (allocatedIds (initialState h1 h2) ops) :=
  allocatedIds_pairwise ops (initialState h1 h2)

/-- Claim C9: in every reachable state, for every `vdiId` string (existing
VDI or not, assigned or not) and every `userId`, `createVDIRequest`
succeeds with no validation: it returns the request
`{id := currentRequestId, vdiId, requestedByUserId := userId, status := Pending}`,
appends it to the request table, and that id is fresh (differs from every
stored request id). -/
theorem C9_createRequest_permissive_fresh (h1 h2 : String) (ops : List Op)
    (vdiId : String) (userId : Nat) (s : MemStorage)
    (hs : s = runOps (initialState h1 h2) ops) :
    (s.createVDIRequest vdiId userId).1 =
      { id := s.currentRequestId, vdiId := vdiId, requestedByUserId := userId,
        status := RequestStatus.Pending } ∧
    (s.createVDIRequest vdiId userId).2.vdiRequests =
      s.vdiRequests ++ [(s.createVDIRequest vdiId userId).1] ∧
    ∀ r ∈ s.vdiRequests, r.id ≠ (s.createVDIRequest vdiId userId).1.id := by
  subst hs
  refine ⟨rfl, rfl, ?_⟩
  intro r hr
  have hb : reqIdsBounded (runOps (initialState h1 h2) ops) :=
    reqIdsBounded_runOps ops (initialState h1 h2)
      (fun r hr => absurd hr (List.not_mem_nil r))
  exact Nat.ne_of_lt (hb r hr)

/-- Claim C9 witness: from the seeded state, a request against the
nonexistent VDI id `"NOPE"` is created all the same, with the first
allocated id 1 and status Pending. -/
theorem C9_createRequest_permissive_fresh_witness :
    ((initialState "h1" "h2").createVDIRequest "NOPE" 7).1 =
      { id := 1, vdiId := "NOPE", requestedByUserId := 7,
        status := RequestStatus.Pending } :=
  (C9_createRequest_permissive_fresh "h1" "h2" [] "NOPE" 7 (initialState "h1" "h2") rfl).1


/-- Claim C1 (code bug): the approval flow evaluated at the spec's own
central scenario — `VDI01` held by user 1, pending transfer request 1 filed
by user 2 (`approvalState`).  Approving request 1 throws Conflict
(`assignVDI` refuses any VDI whose status is Assigned, with no regard for
who holds it), and `VDI01` remains assigned to user 1: ownership is never
transferred to the requester, contradicting "transferring ownership of V to
U regardless of who currently holds it" (and spec §8's approval
scenario). -/
theorem C1_approve_never_transfers_eval :
    (approvalState.approveVDIRequest 1).1 = Except.error Err.VDIAlreadyAssigned ∧
    ((approvalState.approveVDIRequest 1).2.vdis.find? (fun v => v.id == "VDI01")).map
      (fun v => v.assignedUserId) = some (some 1) :=
  ⟨rfl, by decide⟩

/-- Claim C2 counterexample: in `approvalState`, approving request 1 fails
(the Conflict from the internal assign propagates), yet the request record
HAS been half-updated: its stored status is Approved after the failed
call — refuting "the request record is not left silently half-updated". -/
theorem C2_counterexample :
    (approvalState.approveVDIRequest 1).1 = Except.error Err.VDIAlreadyAssigned ∧
    ((approvalState.approveVDIRequest 1).2.vdiRequests.find? (fun x => x.id == 1)).map
      (fun r => r.status) = some RequestStatus.Approved :=
  ⟨rfl, by decide⟩

/-- Claim C2 (amended): when the internal assign fails with Conflict (the
request's target VDI is currently Assigned), `approveVDIRequest` propagates
exactly that Conflict to its caller — but the request record has already
been overwritten with status Approved before the assign attempt and remains
so: the record IS left half-updated by the failed approval. -/
theorem C2_conflict_propagates_but_request_marked_approved (s : MemStorage)
    (rid : Nat) (r : VDIRequest) (v : VDI)
    (hr : s.vdiRequests.find? (fun x => x.id == rid) = some r)
    (hv : s.vdis.find? (fun x => x.id == r.vdiId) = some v)
    (hst : v.status = VDIStatus.Assigned) :
    (s.approveVDIRequest rid).1 = Except.error Err.VDIAlreadyAssigned ∧
    (s.approveVDIRequest rid).2.vdiRequests.find? (fun x => x.id == rid)
      = some { r with status := RequestStatus.Approved } := by
  have ha := assignVDI_conflict_eq
    ({ s with vdiRequests := s.vdiRequests.map (fun x => if x.id == rid then { r with status := RequestStatus.Approved } else x) } : MemStorage)
    r.vdiId r.requestedByUserId v hv hst
  rw [approveVDIRequest_some_eq s rid r hr]
  constructor
  · rw [ha]
    rfl
  · rw [ha]
    exact find?_map_const_update s.vdiRequests rid
      { r with status := RequestStatus.Approved }
      (by simpa using List.find?_some hr) r hr

/-- Claim C2 witness for the amended statement, at `approvalState`. -/
theorem C2_conflict_propagates_witness :
    (approvalState.approveVDIRequest 1).1 = Except.error Err.VDIAlreadyAssigned ∧
    (approvalState.approveVDIRequest 1).2.vdiRequests.find? (fun x => x.id == 1)
      = some { id := 1, vdiId := "VDI01", requestedByUserId := 2,
               status := RequestStatus.Approved } :=
  C2_conflict_propagates_but_request_marked_approved approvalState 1
    { id := 1, vdiId := "VDI01", requestedByUserId := 2, status := RequestStatus.Pending }
    { id := "VDI01", status := VDIStatus.Assigned, assignedUserId := some 1 }
    (by decide) (by decide) rfl

/-- Claim C3 counterexample: in `rejectedState`, request 1 is in the
terminal Rejected state, yet a later `approveVDIRequest 1` overwrites its
status to Approved — refuting "once Approved or Rejected, its status never
changes again". -/
theorem C3_counterexample :
    ((rejectedState.vdiRequests.find? (fun x => x.id == 1)).map (fun r => r.status)
      = some RequestStatus.Rejected) ∧
    (((rejectedState.approveVDIRequest 1).2.vdiRequests.find? (fun x => x.id == 1)).map
      (fun r => r.status) = some RequestStatus.Approved) := by
  decide

/-- Claim C3 (amended): a stored VDIRequest record is never deleted — it
survives every subsequent sequence of ledger calls — but terminal statuses
are NOT immutable: `rejectVDIRequest` overwrites any existing request's
status to Rejected and `approveVDIRequest` overwrites it to Approved,
each with no check of the current status. -/
theorem C3_requests_never_deleted_but_terminal_status_mutable (s : MemStorage)
    (rid : Nat) (r : VDIRequest)
    (h : s.vdiRequests.find? (fun x => x.id == rid) = some r) :
    (∀ ops, hasRequest (runOps s ops) rid) ∧
    (s.rejectVDIRequest rid).2.vdiRequests.find? (fun x => x.id == rid)
      = some { r with status := RequestStatus.Rejected } ∧
    (s.approveVDIRequest rid).2.vdiRequests.find? (fun x => x.id == rid)
      = some { r with status := RequestStatus.Approved } := by
  refine ⟨fun ops => hasRequest_runOps ops s rid (by unfold hasRequest; rw [h]; rfl),
    ?_, ?_⟩
  · rw [rejectVDIRequest_some_eq s rid r h]
    exact find?_map_const_update s.vdiRequests rid
      { r with status := RequestStatus.Rejected }
      (by simpa using List.find?_some h) r h
  · rw [approveVDIRequest_some_eq s rid r h]
    show (MemStorage.assignVDI _ r.vdiId r.requestedByUserId).2.vdiRequests.find?
      (fun x => x.id == rid) = some { r with status := RequestStatus.Approved }
    rw [assignVDI_vdiRequests]
    exact find?_map_const_update s.vdiRequests rid
      { r with status := RequestStatus.Approved }
      (by simpa using List.find?_some h) r h

/-- Claim C3 witness for the amended statement: request 1 of `rejectedState`
(already Rejected) survives a further ledger call, and an approve call flips
it to Approved. -/
theorem C3_requests_never_deleted_witness :
    hasRequest (runOps rejectedState [Op.unassign "VDI03"]) 1 ∧
    (rejectedState.approveVDIRequest 1).2.vdiRequests.find? (fun x => x.id == 1)
      = some { id := 1, vdiId := "VDI02", requestedByUserId := 2,
               status := RequestStatus.Approved } := by
  have h := C3_requests_never_deleted_but_terminal_status_mutable rejectedState 1
    { id := 1, vdiId := "VDI02", requestedByUserId := 2, status := RequestStatus.Rejected }
    (by decide)
  exact ⟨h.1 [Op.unassign "VDI03"], h.2.2⟩


/-- Claim C6 counterexample: in the reachable `staleNotifyState` — `VDI01`
held by user 1, pending request 1 for `VDI01`, then pending request 2 for
`VDI02` — notifying for `VDI01` sends a message carrying request id 2, the
globally latest request, although the most recently created pending request
for `VDI01` is request 1: the claim's description of the carried request id
is refuted. -/
theorem C6_counterexample :
    notifyVDIRequest staleNotifyState staleNotifyRegistry "VDI01" 2 =
      [{ toUserId := 1, channel := { cid := 10, isOpen := true },
         message := { requestingUserId := 2, requestingUsername := "tinaga",
                      vdiId := "VDI01", requestId := 2 } }] ∧
    specLatestPendingRequestFor staleNotifyState "VDI01"
      = some { id := 1, vdiId := "VDI01", requestedByUserId := 2,
               status := RequestStatus.Pending } := by
  decide

/-- Claim C6 (amended): `notifyVDIRequest` is a no-op when the VDI has no
current holder, when the requesting user id is unknown, and when the
request table is empty (the `request.id` access raises and the catch
swallows it, so nothing is sent); every send
it performs goes to the holder and to nobody else; and in the sending case
(holder present and truthy, requester known, request table nonempty) it
sends to exactly the holder's open channels one message carrying the
requesting user's id and username, the vdiId — and the id of the globally
most recently created request, regardless of that request's VDI or
status. -/
theorem C6_notify_targets_holder_with_latest_request (s : MemStorage)
    (reg : Registry) (vdiId : String) (ruid : Nat) :
    ((s.getVDIs.find? (fun v => v.id == vdiId)).bind (fun v => v.assignedUserId) = none →
      notifyVDIRequest s reg vdiId ruid = []) ∧
    (s.getUser ruid = none → notifyVDIRequest s reg vdiId ruid = []) ∧
    (s.getVDIRequests.getLast? = none → notifyVDIRequest s reg vdiId ruid = []) ∧
    (∀ sd ∈ notifyVDIRequest s reg vdiId ruid,
      (s.getVDIs.find? (fun v => v.id == vdiId)).bind (fun v => v.assignedUserId)
        = some sd.toUserId) ∧
    (∀ holder ru request,
      (s.getVDIs.find? (fun v => v.id == vdiId)).bind (fun v => v.assignedUserId)
        = some holder →
      holder ≠ 0 →
      s.getUser ruid = some ru →
      s.getVDIRequests.getLast? = some request →
      notifyVDIRequest s reg vdiId ruid =
        (((lookupChannels reg holder).getD []).filter (fun c => c.isOpen)).map
          (fun c => { toUserId := holder, channel := c,
                      message := { requestingUserId := ru.id,
                                   requestingUsername := ru.username,
                                   vdiId := vdiId, requestId := request.id } })) := by
  refine ⟨?_, ?_, ?_, ?_, ?_⟩
  · intro hb
    unfold notifyVDIRequest
    rw [hb]
  · intro hu
    unfold notifyVDIRequest
    rw [hu]
    cases (s.getVDIs.find? (fun v => v.id == vdiId)).bind (fun v => v.assignedUserId) <;> rfl
  · intro hl
    unfold notifyVDIRequest
    cases hb : (s.getVDIs.find? (fun v => v.id == vdiId)).bind (fun v => v.assignedUserId) with
    | none => rfl
    | some holder =>
      cases hu : s.getUser ruid with
      | none => rfl
      | some ru =>
        by_cases h0 : (holder == 0) = true
        · simp only [if_pos h0]
        · simp only [if_neg h0]
          rw [hl]
  · intro sd hsd
    unfold notifyVDIRequest at hsd
    cases hb : (s.getVDIs.find? (fun v => v.id == vdiId)).bind (fun v => v.assignedUserId) with
    | none =>
      rw [hb] at hsd
      simp at hsd
    | some holder =>
      rw [hb] at hsd
      cases hu : s.getUser ruid with
      | none => rw [hu] at hsd; simp at hsd
      | some ru =>
        rw [hu] at hsd
        by_cases h0 : (holder == 0) = true
        · simp only [if_pos h0] at hsd
          simp at hsd
        · simp only [if_neg h0] at hsd
          cases hl : s.getVDIRequests.getLast? with
          | none => rw [hl] at hsd; simp at hsd
          | some request =>
            rw [hl] at hsd
            cases hc : lookupChannels reg holder with
            | none => rw [hc] at hsd; simp at hsd
            | some chans =>
              rw [hc] at hsd
              obtain ⟨c, hcmem, rfl⟩ := List.mem_map.mp hsd
              rfl
  · intro holder ru request hb h0 hu hl
    unfold notifyVDIRequest
    rw [hb, hu]
    simp only [if_neg (show ¬ ((holder == 0) = true) by simp [h0])]
    rw [hl]
    cases hc : lookupChannels reg holder with
    | none => rfl
    | some chans => rfl

/-- Claim C6 witness for the amended statement, at `staleNotifyState`: the
message goes to holder 1's open channels and carries requester 2's identity
and the id of the globally latest request (request 2). -/
theorem C6_notify_witness :
    notifyVDIRequest staleNotifyState staleNotifyRegistry "VDI01" 2 =
      (((lookupChannels staleNotifyRegistry 1).getD []).filter (fun c => c.isOpen)).map
        (fun c => { toUserId := 1, channel := c,
                    message := { requestingUserId := 2, requestingUsername := "tinaga",
                                 vdiId := "VDI01", requestId := 2 } }) :=
  (C6_notify_targets_holder_with_latest_request staleNotifyState staleNotifyRegistry
      "VDI01" 2).2.2.2.2 1 { id := 2, username := "tinaga", password := "h2" }
    { id := 2, vdiId := "VDI02", requestedByUserId := 2, status := RequestStatus.Pending }
    (by decide) (by decide) (by decide) (by decide)

/-- Claim C8 (spec-modelled enforcement layer): `createUserChecked` fails
with Conflict exactly when a user with the requested username already
exists; otherwise it succeeds, allocating the next id and appending the new
user. -/
theorem C8_createUser_username_conflict (s : MemStorage) (username password : String) :
    ((∃ u ∈ s.users, u.username = username) →
      createUserChecked s username password = (Except.error Err.UsernameTaken, s)) ∧
    ((∀ u ∈ s.users, u.username ≠ username) →
      createUserChecked s username password =
        (Except.ok { id := s.currentId, username := username, password := password },
         { s with currentId := s.currentId + 1,
                  users := s.users ++ [{ id := s.currentId, username := username, password := password }] })) := by
  constructor
  · rintro ⟨u, hu, he⟩
    have h1 : (s.users.find? (fun x => x.username == username)).isSome = true :=
      List.find?_isSome.mpr ⟨u, hu, by simp [he]⟩
    obtain ⟨w, hw⟩ := Option.isSome_iff_exists.mp h1
    unfold createUserChecked MemStorage.getUserByUsername
    rw [hw]
  · intro h
    have h1 : s.users.find? (fun x => x.username == username) = none :=
      List.find?_eq_none.mpr (fun x hx => by simp [h x hx])
    unfold createUserChecked MemStorage.getUserByUsername
    rw [h1]
    rfl

/-- Claim C8 witness: registering the already-seeded username `madhav`
fails with Conflict and leaves the store untouched. -/
theorem C8_createUser_username_conflict_witness :
    createUserChecked (initialState "ha" "hb") "madhav" "pw"
      = (Except.error Err.UsernameTaken, initialState "ha" "hb") :=
  (C8_createUser_username_conflict (initialState "ha" "hb") "madhav" "pw").1
    ⟨{ id := 1, username := "madhav", password := "ha" }, by decide, rfl⟩

/-- Claim C10: the user table is kept in creation order (`createUser`
appends), and `getUserByUsername` scans it front to back — so whenever the
table decomposes as earlier non-matches, then a match `u`, then anything
(in particular when two or more users share the username), the
earliest-created match `u` is returned. -/
theorem C10_earliest_created_match_wins (s : MemStorage) (name : String)
    (l1 l2 : List User) (u : User)
    (hs : s.users = l1 ++ u :: l2) (hu : u.username = name)
    (hl : ∀ x ∈ l1, x.username ≠ name) :
    s.getUserByUsername name = some u ∧
    ∀ username password,
      ((s.createUser username password).2).users
        = s.users ++ [(s.createUser username password).1] := by
  constructor
  · unfold MemStorage.getUserByUsername
    rw [hs]
    exact find?_append_cons (fun x => x.username == name) l1 l2 u (by simp [hu])
      (fun x hx => by simp [hl x hx])
  · intro username password
    rfl

/-- Claim C10 witness: `dupUserState` holds two users named `bob` (ids 3
and 4, created in that order); lookup returns the one created first. -/
theorem C10_earliest_created_match_wins_witness :
    dupUserState.getUserByUsername "bob"
      = some { id := 3, username := "bob", password := "p1" } ∧
    ((dupUserState.createUser "x" "y").2).users
      = dupUserState.users ++ [(dupUserState.createUser "x" "y").1] := by
  have h := C10_earliest_created_match_wins dupUserState "bob"
    [{ id := 1, username := "madhav", password := "ha" },
     { id := 2, username := "tinaga", password := "hb" }]
    [{ id := 4, username := "bob", password := "p2" }]
    { id := 3, username := "bob", password := "p1" }
    (by decide) rfl (by decide)
  exact ⟨h.1, h.2 "x" "y"⟩

end VDIDashboard
